import Mathlib

/-!
Verification development for the mongo-unit-of-work-system repository.

The Go source is shallowly embedded: BSON values become the inductive
`BVal`, `bson.M` / Go maps become association lists with overwrite
insertion (`mset`), entities become the `Entity` structure mirroring
`domain.BaseEntity`, and each method of `pkg/identifier/identifier.go`,
`pkg/domain/base.go` and the mongodb `UnitOfWork` becomes a Lean
function.  The mongo driver itself is an external collaborator: its
query matcher is modelled by `matchFilter` over the embedded BSON
values, and session/transaction driver calls are modelled as
succeeding (driver transport failures are outside the program).
-/

namespace MongoUow

/-- BSON-like values: the fragment of Go `interface\x7b\x7d` / `bson.M` values
the repository stores in identifier maps and filters. -/
inductive BVal where
  | str (s : String)
  | int (n : Int)
  | bool (b : Bool)
  | time (t : Nat)
  | oid (n : Nat)
  | arr (vs : List BVal)
  | doc (m : List (String × BVal))

mutual

/-- Structural boolean equality on `BVal`, standing in for the equality
the Go driver applies to BSON scalar and composite values. -/
def bvalBeq : BVal → BVal → Bool
  | .str a, .str b => a == b
  | .int a, .int b => a == b
  | .bool a, .bool b => a == b
  | .time a, .time b => a == b
  | .oid a, .oid b => a == b
  | .arr a, .arr b => arrBeq a b
  | .doc a, .doc b => docBeq a b
  | _, _ => false

/-- Elementwise `bvalBeq` on arrays. -/
def arrBeq : List BVal → List BVal → Bool
  | [], [] => true
  | a :: as, b :: bs => bvalBeq a b && arrBeq as bs
  | _, _ => false

/-- Entrywise `bvalBeq` on documents. -/
def docBeq : List (String × BVal) → List (String × BVal) → Bool
  | [], [] => true
  | (k, v) :: as, (k', v') :: bs => k == k' && bvalBeq v v' && docBeq as bs
  | _, _ => false

end

/-- Association-list map with Go-map overwrite semantics:
`m[k] = v` replaces an existing binding for `k` in place, otherwise
appends a new binding. -/
def mset (m : List (String × BVal)) (k : String) (v : BVal) :
    List (String × BVal) :=
  match m with
  | [] => [(k, v)]
  | (k', v') :: t => if k' = k then (k, v) :: t else (k', v') :: mset t k v

/-- Membership test of a pattern as a contiguous sublist, the embedding of
Go `strings.Contains` on the character lists of the two strings. -/
def subAux (p : List Char) : List Char → Bool
  | [] => p.isPrefixOf []
  | c :: t => p.isPrefixOf (c :: t) || subAux p t

/-- Go `strings.Contains key pat`. -/
def strContains (s pat : String) : Bool :=
  subAux pat.data s.data

/-- Go `strings.TrimSuffix`: removes the trailing `pat` when present,
otherwise returns the string unchanged. -/
def strTrimSuffix (s pat : String) : String :=
  if pat.data.isSuffixOf s.data then
    ⟨s.data.take (s.data.length - pat.data.length)⟩
  else s

/-- Embedding of `identifier.Identifier`: the accumulated query map
(`map[string]interface\x7b\x7d`), kept as an association list. -/
structure Identifier where
  query : List (String × BVal)

/-- Embedding of `identifier.New()`. -/
def Identifier.New : Identifier := ⟨[]⟩

/-- Embedding of `Identifier.Equal`: stores under the plain field key. -/
def Identifier.Equal (i : Identifier) (field : String) (v : BVal) : Identifier :=
  ⟨mset i.query field v⟩

/-- Embedding of `Identifier.In`: stores under `field ++ " IN"`. -/
def Identifier.In (i : Identifier) (field : String) (vs : List BVal) : Identifier :=
  ⟨mset i.query (field ++ " IN") (.arr vs)⟩

/-- Embedding of `Identifier.Like`: stores under `field ++ " LIKE"`. -/
def Identifier.Like (i : Identifier) (field pattern : String) : Identifier :=
  ⟨mset i.query (field ++ " LIKE") (.str pattern)⟩

/-- Embedding of `Identifier.GreaterThan`: stores under `field ++ " >"`. -/
def Identifier.GreaterThan (i : Identifier) (field : String) (v : BVal) : Identifier :=
  ⟨mset i.query (field ++ " >") v⟩

/-- Embedding of `Identifier.LessThan`: stores under `field ++ " <"`. -/
def Identifier.LessThan (i : Identifier) (field : String) (v : BVal) : Identifier :=
  ⟨mset i.query (field ++ " <") v⟩

/-- Embedding of `Identifier.Between`: stores the pair under
`field ++ " BETWEEN"`. -/
def Identifier.Between (i : Identifier) (field : String) (a b : BVal) : Identifier :=
  ⟨mset i.query (field ++ " BETWEEN") (.arr [a, b])⟩

/-- Embedding of `Identifier.IsNull`: stores `true` under
`field ++ " IS NULL"`. -/
def Identifier.IsNull (i : Identifier) (field : String) : Identifier :=
  ⟨mset i.query (field ++ " IS NULL") (.bool true)⟩

/-- Embedding of `Identifier.IsNotNull`: stores `true` under
`field ++ " IS NOT NULL"`. -/
def Identifier.IsNotNull (i : Identifier) (field : String) : Identifier :=
  ⟨mset i.query (field ++ " IS NOT NULL") (.bool true)⟩

/-- Embedding of `Identifier.Add`. -/
def Identifier.Add (i : Identifier) (key : String) (v : BVal) : Identifier :=
  ⟨mset i.query key v⟩

/-- Embedding of `Identifier.AddIf`. -/
def Identifier.AddIf (i : Identifier) (condition : Bool) (key : String) (v : BVal) :
    Identifier :=
  if condition then ⟨mset i.query key v⟩ else i

/-- Embedding of one iteration of the loop body of `Identifier.ToBSON`:
classifies a key by `strings.Contains` checks, in the source's branch
order, and assigns the translated predicate into the filter map. -/
def toBSONStep (filter : List (String × BVal)) (kv : String × BVal) :
    List (String × BVal) :=
  let k := kv.1
  let v := kv.2
  if strContains k " >" then
    mset filter (strTrimSuffix k " >") (.doc [("$gt", v)])
  else if strContains k " <" then
    mset filter (strTrimSuffix k " <") (.doc [("$lt", v)])
  else if strContains k " IN" then
    mset filter (strTrimSuffix k " IN") (.doc [("$in", v)])
  else if strContains k " LIKE" then
    mset filter (strTrimSuffix k " LIKE")
      (.doc [("$regex", v), ("$options", .str "i")])
  else if strContains k " BETWEEN" then
    match v with
    | .arr [a, b] =>
        mset filter (strTrimSuffix k " BETWEEN") (.doc [("$gte", a), ("$lte", b)])
    | _ => filter
  else if strContains k " IS NULL" then
    mset filter (strTrimSuffix k " IS NULL") (.doc [("$exists", .bool false)])
  else if strContains k " IS NOT NULL" then
    mset filter (strTrimSuffix k " IS NOT NULL") (.doc [("$exists", .bool true)])
  else
    mset filter k v

/-- Embedding of `Identifier.ToBSON`: folds the loop body over the
accumulated entries (the Go map's iteration order is unspecified; the
association-list order stands in for it). -/
def Identifier.ToBSON (i : Identifier) : List (String × BVal) :=
  i.query.foldl toBSONStep []

/-- Embedding of `Identifier.Has`: key lookup on the raw query map. -/
def Identifier.Has (i : Identifier) (key : String) : Bool :=
  (i.query.lookup key).isSome

/-- Embedding of `Identifier.Get`. -/
def Identifier.Get (i : Identifier) (key : String) : Option BVal :=
  i.query.lookup key

/-- BSON documents as stored and queried. -/
abbrev Doc := List (String × BVal)

/-- Comparison on the scalar `BVal`s the driver can order; composite or
mixed-type comparisons are not modelled. -/
def cmpBVal (a b : BVal) : Option Ordering :=
  match a, b with
  | .int m, .int n => some (compare m n)
  | .time m, .time n => some (compare m n)
  | .str s, .str t => some (compare s t)
  | _, _ => none

/-- Model of the external mongo matcher for one filter entry: handles the
predicate documents `ToBSON` produces (`$gt`, `$lt`, `$in`, `$gte`/`$lte`,
`$exists`) and plain equality; `$regex` matching is not modelled and
treated as non-matching. -/
def matchPred (d : Doc) (field : String) (p : BVal) : Bool :=
  match p with
  | .doc [("$gt", v)] =>
      match d.lookup field with
      | some w => cmpBVal w v == some .gt
      | none => false
  | .doc [("$lt", v)] =>
      match d.lookup field with
      | some w => cmpBVal w v == some .lt
      | none => false
  | .doc [("$in", .arr vs)] =>
      match d.lookup field with
      | some w => vs.any (fun v => bvalBeq w v)
      | none => false
  | .doc [("$gte", a), ("$lte", b)] =>
      match d.lookup field with
      | some w =>
          (cmpBVal w a == some .gt || bvalBeq w a) &&
          (cmpBVal w b == some .lt || bvalBeq w b)
      | none => false
  | .doc [("$exists", .bool b)] => (d.lookup field).isSome == b
  | .doc [("$regex", _), ("$options", _)] => false
  | v =>
      match d.lookup field with
      | some w => bvalBeq w v
      | none => false

/-- Model of the external mongo matcher for a whole filter document: every
entry must match. -/
def matchFilter (filter : Doc) (d : Doc) : Bool :=
  filter.all (fun kv => matchPred d kv.1 kv.2)

/-- Embedding of `domain.BaseEntity` (field names as in the Go struct;
ObjectID and time values are represented by `Nat`, the nil ObjectID by
`0`, zero time by `0`, and the `*time.Time` deletion timestamp by
`Option Nat`). -/
structure Entity where
  ID : Nat := 0
  Slug : String := ""
  Name : String := ""
  CreatedAt : Nat := 0
  UpdatedAt : Nat := 0
  DeletedAt : Option Nat := none
deriving DecidableEq, Repr

/-- Embedding of `UnitOfWork.buildFilterFromModel`: reflects each field of
the entity in declaration order, skips zero values, and keys the rest by
the first component of its bson tag (`_id`, `slug`, `name`, `createdAt`,
`updatedAt`, `deletedAt`). -/
def buildFilterFromModel (e : Entity) : Doc :=
  (if e.ID ≠ 0 then [("_id", BVal.oid e.ID)] else []) ++
  (if e.Slug ≠ "" then [("slug", BVal.str e.Slug)] else []) ++
  (if e.Name ≠ "" then [("name", BVal.str e.Name)] else []) ++
  (if e.CreatedAt ≠ 0 then [("createdAt", BVal.time e.CreatedAt)] else []) ++
  (if e.UpdatedAt ≠ 0 then [("updatedAt", BVal.time e.UpdatedAt)] else []) ++
  (match e.DeletedAt with
   | some t => [("deletedAt", BVal.time t)]
   | none => [])

/-- Document encoding of an entity under its `omitempty` bson tags (zero
fields are omitted); it coincides with the reflect-based sparse filter. -/
def entityDoc (e : Entity) : Doc := buildFilterFromModel e

/-- The `\x7b"$exists": false\x7d` predicate document. -/
def existsFalse : BVal := .doc [("$exists", .bool false)]

/-- The `\x7b"$exists": true\x7d` predicate document. -/
def existsTrue : BVal := .doc [("$exists", .bool true)]

/-- Embedding of `UnitOfWork.setEntityTimestamp`: sets the struct field
named `strings.Title fieldName` when it exists with type `time.Time`
(`CreatedAt` and `UpdatedAt` here; the repository instantiates `T` with
pointer types, so the reflected value is settable). -/
def setEntityTimestamp (e : Entity) (fieldName : String) (t : Nat) : Entity :=
  if fieldName = "createdAt" then { e with CreatedAt := t }
  else if fieldName = "updatedAt" then { e with UpdatedAt := t }
  else e

/-- Embedding of `UnitOfWork.Insert` (success path of the driver write):
stamps `createdAt` and `updatedAt` to `now`, assigns `fresh` as the new
ObjectID when the entity's identity is zero (`primitive.NewObjectID` is
modelled by the parameter `fresh`), appends the document, and returns the
possibly identity-populated entity. -/
def Insert (now fresh : Nat) (db : List Entity) (e : Entity) :
    List Entity × Entity :=
  let e1 := setEntityTimestamp e "createdAt" now
  let e2 := setEntityTimestamp e1 "updatedAt" now
  let e3 := if e2.ID = 0 then { e2 with ID := fresh } else e2
  (db ++ [e3], e3)

/-- Embedding of `UnitOfWork.FindAll` (driver success path): the executed
filter requires `deletedAt` to be absent; zero matches yield an empty
list, not an error. -/
def FindAll (coll : List Doc) : Except String (List Doc) :=
  .ok (coll.filter (matchFilter [("deletedAt", existsFalse)]))

/-- Filter built by `UnitOfWork.FindOneById`. -/
def findOneByIdFilter (id : Nat) : Doc :=
  [("_id", BVal.oid id), ("deletedAt", existsFalse)]

/-- Embedding of `UnitOfWork.FindOneById`: `mongo.ErrNoDocuments` becomes
the `entity not found` error. -/
def FindOneById (coll : List Doc) (id : Nat) : Except String Doc :=
  match coll.find? (matchFilter (findOneByIdFilter id)) with
  | some d => .ok d
  | none => .error "entity not found"

/-- Filter built by `UnitOfWork.FindOneByIdentifier`: the identifier's
`ToBSON`, with `deletedAt` forced to the exists-false predicate whenever
`identifier.Has "deletedAt"` is false on the raw query map. -/
def findOneByIdentifierFilter (i : Identifier) : Doc :=
  let filter := i.ToBSON
  if i.Has "deletedAt" then filter else mset filter "deletedAt" existsFalse

/-- Embedding of `UnitOfWork.FindOneByIdentifier`. -/
def FindOneByIdentifier (coll : List Doc) (i : Identifier) : Except String Doc :=
  match coll.find? (matchFilter (findOneByIdentifierFilter i)) with
  | some d => .ok d
  | none => .error "entity not found"

/-- Filter built by `UnitOfWork.FindOne`: the sparse filter from the
entity, then `filterBSON["deletedAt"]` is assigned the exists-false
predicate unconditionally. -/
def findOneFilter (e : Entity) : Doc :=
  mset (buildFilterFromModel e) "deletedAt" existsFalse

/-- Embedding of `UnitOfWork.FindOne`. -/
def FindOne (coll : List Doc) (e : Entity) : Except String Doc :=
  match coll.find? (matchFilter (findOneFilter e)) with
  | some d => .ok d
  | none => .error "entity not found"

/-- Embedding of `domain.SortDirection`. -/
inductive SortDirection where
  | asc
  | desc
deriving DecidableEq, Repr

/-- Embedding of `domain.QueryParams` (the entity filter is a pointer in
Go, `nil` when absent, hence `Option Entity`; the sort map is kept as an
association list and named `SortBy` because `Sort` is reserved in Lean). -/
structure QueryParams where
  Filter : Option Entity := none
  SortBy : List (String × SortDirection) := []
  Include : List String := []
  Limit : Int := 0
  Offset : Int := 0
deriving DecidableEq, Repr

/-- Embedding of `QueryParams.Validate` (the Go method mutates the
receiver and always returns a nil error; the updated value is returned). -/
def QueryParams.Validate (q : QueryParams) : QueryParams :=
  let q := if q.Limit < 0 then { q with Limit := 10 } else q
  let q := if q.Limit > 1000 then { q with Limit := 1000 } else q
  if q.Offset < 0 then { q with Offset := 0 } else q

/-- Filter built by `UnitOfWork.FindAllWithPagination`: the base
exists-false predicate on `deletedAt`, then every entry of the sparse
entity filter is assigned over it when the query filter is non-nil. -/
def findAllWithPaginationFilter (qf : Option Entity) : Doc :=
  let base := [("deletedAt", existsFalse)]
  match qf with
  | none => base
  | some e => (buildFilterFromModel e).foldl (fun acc kv => mset acc kv.1 kv.2) base

/-- Embedding of `UnitOfWork.FindAllWithPagination` (driver success path):
a count over the filter and a find with skip/limit applied (the driver's
sort reordering is not modelled; it permutes the page only). -/
def FindAllWithPagination (coll : List Doc) (q : QueryParams) :
    Except String (List Doc × Nat) :=
  let filter := findAllWithPaginationFilter q.Filter
  let matched := coll.filter (matchFilter filter)
  let total := matched.length
  let postSkip := if q.Offset > 0 then matched.drop q.Offset.toNat else matched
  let page := if q.Limit > 0 then postSkip.take q.Limit.toNat else postSkip
  .ok (page, total)

/-- Transaction-lifecycle state of a `UnitOfWork`: the `inTx` flag and
whether a session is held (`session != nil`). -/
structure TxState where
  inTx : Bool
  hasSession : Bool
deriving DecidableEq, Repr

/-- Embedding of `UnitOfWork.BeginTransaction` (driver session start
modelled as succeeding; the mutex only serializes calls and is not part
of the state). -/
def BeginTransaction (s : TxState) : Except String TxState :=
  if s.inTx then .error "transaction already in progress"
  else .ok { inTx := true, hasSession := true }

/-- Embedding of `UnitOfWork.CommitTransaction` (driver commit modelled as
succeeding). -/
def CommitTransaction (s : TxState) : Except String TxState :=
  if !s.inTx then .error "no transaction in progress"
  else .ok { inTx := false, hasSession := false }

/-- Embedding of `UnitOfWork.RollbackTransaction`: the Go method has no
error return; idle is a no-op, otherwise abort and end the session. -/
def RollbackTransaction (s : TxState) : TxState :=
  if !s.inTx then s
  else { inTx := false, hasSession := false }

/-- Model of the driver applying `\x7b"$set": entity\x7d` to a matched
document: the entity is serialized with `omitempty` bson tags, so only
its non-zero fields are set. -/
def applySet (u d : Entity) : Entity :=
  { ID := if u.ID ≠ 0 then u.ID else d.ID
    Slug := if u.Slug ≠ "" then u.Slug else d.Slug
    Name := if u.Name ≠ "" then u.Name else d.Name
    CreatedAt := if u.CreatedAt ≠ 0 then u.CreatedAt else d.CreatedAt
    UpdatedAt := if u.UpdatedAt ≠ 0 then u.UpdatedAt else d.UpdatedAt
    DeletedAt := match u.DeletedAt with
      | some t => some t
      | none => d.DeletedAt }

/-- Model of one `UpdateOneModel` of `BulkUpdate`: its filter is
`\x7b_id: entity.GetID(), deletedAt: \x7b$exists: false\x7d\x7d`; the first document
matching it receives the `$set`, and the reported modified count is `1`
exactly when the document actually changed. -/
def updateOneById (u : Entity) : List Entity → List Entity × Nat
  | [] => ([], 0)
  | d :: t =>
      if d.ID = u.ID ∧ d.DeletedAt = none then
        let d' := applySet u d
        (d' :: t, if d' = d then 0 else 1)
      else
        let r := updateOneById u t
        (d :: r.1, r.2)

/-- Model of the unordered `BulkWrite` of update models: every model is
applied (one model's missing target does not abort its siblings) and the
modified counts are summed. -/
def bulkWriteUpdates (db : List Entity) (us : List Entity) : List Entity × Nat :=
  us.foldl (fun acc u =>
    let r := updateOneById u acc.1
    (r.1, acc.2 + r.2)) (db, 0)

/-- Embedding of `UnitOfWork.BulkUpdate` (driver success path): empty
input returns immediately; otherwise each entity's `updatedAt` is stamped
to `now`, one unordered batch is issued, and a count-mismatch error is
returned when the reported modified count differs from the request
count — without undoing the applied updates. -/
def BulkUpdate (now : Nat) (db : List Entity) (es : List Entity) :
    List Entity × Except String (List Entity) :=
  if es.isEmpty then (db, .ok es)
  else
    let stamped := es.map (fun e => setEntityTimestamp e "updatedAt" now)
    let r := bulkWriteUpdates db stamped
    if r.2 ≠ stamped.length then
      (r.1, .error ("not all entities were updated: modified " ++
        toString r.2 ++ " out of " ++ toString stamped.length))
    else (r.1, .ok stamped)

/-- Embedding of `UnitOfWork.BulkInsert` (driver success path): empty
input returns immediately; otherwise each entity is stamped, given a
fresh identity when its identity is zero (`fresh` models
`primitive.NewObjectID` per index), and the batch is appended. -/
def BulkInsert (now : Nat) (fresh : Nat → Nat) (db : List Entity)
    (es : List Entity) : List Entity × Except String (List Entity) :=
  if es.isEmpty then (db, .ok es)
  else
    let stamped := es.enum.map (fun p =>
      let e := setEntityTimestamp (setEntityTimestamp p.2 "createdAt" now)
        "updatedAt" now
      if e.ID = 0 then { e with ID := fresh p.1 } else e)
    (db ++ stamped, .ok stamped)

/-- Model of one soft-delete `UpdateOneModel`: sets `deletedAt` and
`updatedAt` on the first document matching the filter. -/
def softDeleteOne (now : Nat) (filter : Doc) : List Entity → List Entity
  | [] => []
  | d :: t =>
      if matchFilter filter (entityDoc d) then
        { d with DeletedAt := some now, UpdatedAt := now } :: t
      else d :: softDeleteOne now filter t

/-- Embedding of `UnitOfWork.BulkSoftDelete` (driver success path): empty
input returns immediately; otherwise one update model per identifier,
each filter being the identifier's `ToBSON` with `deletedAt` forced
absent, issued as one unordered batch. -/
def BulkSoftDelete (now : Nat) (db : List Entity) (ids : List Identifier) :
    List Entity × Except String Unit :=
  if ids.isEmpty then (db, .ok ())
  else
    (ids.foldl (fun acc i =>
      softDeleteOne now (mset i.ToBSON "deletedAt" existsFalse) acc) db,
     .ok ())

/-- Model of one `DeleteOneModel`: removes the first document matching
the filter. -/
def deleteOneByFilter (filter : Doc) : List Entity → List Entity
  | [] => []
  | d :: t =>
      if matchFilter filter (entityDoc d) then t
      else d :: deleteOneByFilter filter t

/-- Embedding of `UnitOfWork.BulkHardDelete` (driver success path): empty
input returns immediately; otherwise one delete model per identifier
filter, issued as one unordered batch. -/
def BulkHardDelete (db : List Entity) (ids : List Identifier) :
    List Entity × Except String Unit :=
  if ids.isEmpty then (db, .ok ())
  else
    (ids.foldl (fun acc i => deleteOneByFilter i.ToBSON acc) db, .ok ())

/-- Filter built by `UnitOfWork.Restore`: the identifier's `ToBSON` with
`deletedAt` assigned the exists-true predicate. -/
def restoreFilter (i : Identifier) : Doc :=
  mset i.ToBSON "deletedAt" existsTrue

/-- Model of the `FindOneAndUpdate` of `Restore` with `ReturnDocument =
After`: on the first matching document, unset `deletedAt`, set
`updatedAt := now`, and hand back the post-update document. -/
def restoreGo (now : Nat) (filter : Doc) :
    List Entity → Option (List Entity × Entity)
  | [] => none
  | d :: t =>
      if matchFilter filter (entityDoc d) then
        let d' := { d with DeletedAt := none, UpdatedAt := now }
        some (d' :: t, d')
      else
        match restoreGo now filter t with
        | some (t', r) => some (d :: t', r)
        | none => none

/-- Embedding of `UnitOfWork.Restore` (driver success path):
`mongo.ErrNoDocuments` becomes the `entity not found in trash` error. -/
def Restore (now : Nat) (db : List Entity) (i : Identifier) :
    List Entity × Except String Entity :=
  match restoreGo now (restoreFilter i) db with
  | some (db', r) => (db', .ok r)
  | none => (db, .error "entity not found in trash")

/-- Error-discriminator on `Except` results (Go `err != nil`). -/
def exceptIsErr {α : Type} : Except String α → Bool
  | .error _ => true
  | .ok _ => false

/-- Embedding of `mongodb.Config` (durations in seconds; `Port` and the
pool sizes as `Nat`, matching their non-negative use). -/
structure Config where
  Host : String := ""
  Port : Nat := 0
  Database : String := ""
  Username : String := ""
  Password : String := ""
  AuthSource : String := ""
  MaxPoolSize : Nat := 0
  MinPoolSize : Nat := 0
  MaxIdleTime : Nat := 0
  Timeout : Nat := 0
  SSL : Bool := false
  ReplicaSet : String := ""
deriving DecidableEq, Repr

/-- Embedding of `mongodb.NewConfig`. -/
def NewConfig : Config :=
  { Host := "localhost", Port := 27017, Database := "test",
    AuthSource := "admin", MaxPoolSize := 100, MinPoolSize := 5,
    MaxIdleTime := 30, Timeout := 10, SSL := false }

/-- Query parameters accumulated by `Config.ConnectionString`, in the
source's append order and under the source's conditions. -/
def connParams (c : Config) : List String :=
  (if c.AuthSource ≠ "" ∧ c.Username ≠ "" then ["authSource=" ++ c.AuthSource]
   else []) ++
  (if c.MaxPoolSize > 0 then ["maxPoolSize=" ++ toString c.MaxPoolSize]
   else []) ++
  (if c.MinPoolSize > 0 then ["minPoolSize=" ++ toString c.MinPoolSize]
   else []) ++
  (if c.SSL then ["ssl=true"] else []) ++
  (if c.ReplicaSet ≠ "" then ["replicaSet=" ++ c.ReplicaSet] else [])

/-- Embedding of `Config.ConnectionString`: the parameter-joining loop
(`?` once, then `&` between successive parameters) is
`String.intercalate "&"`. -/
def connectionString (c : Config) : String :=
  let uri := "mongodb://"
  let uri := uri ++
    (if c.Username ≠ "" ∧ c.Password ≠ "" then
      c.Username ++ ":" ++ c.Password ++ "@"
     else "")
  let uri := uri ++ c.Host ++ ":" ++ toString c.Port ++ "/" ++ c.Database
  let params := connParams c
  uri ++ (if params.isEmpty then "" else "?" ++ String.intercalate "&" params)

/-- Follows the spec's words for the connection-string format
`scheme://[user:pass@]host:port/database[?param=val&...]`, for comparison
with `connectionString`. -/
def specURIFormat (creds : Option (String × String)) (host : String)
    (port : Nat) (db : String) (params : List String) : String :=
  "mongodb://" ++
  (match creds with
   | some p => p.1 ++ ":" ++ p.2 ++ "@"
   | none => "") ++
  host ++ ":" ++ toString port ++ "/" ++ db ++
  (if params.isEmpty then "" else "?" ++ String.intercalate "&" params)

/-- Heap of identifier query maps: Go's `Identifier` holds a reference to
a mutable map, so aliasing between `ToMap`'s result and the identifier is
modelled by references (indices) into a store. -/
abbrev Store := List (List (String × BVal))

/-- Map held at reference `r`. -/
def storeGet : Store → Nat → List (String × BVal)
  | [], _ => []
  | h :: _, 0 => h
  | _ :: t, n + 1 => storeGet t n

/-- Store with the map at reference `r` replaced. -/
def storeSet : Store → Nat → List (String × BVal) → Store
  | [], _, _ => []
  | _ :: t, 0, m => m :: t
  | h :: t, n + 1, m => h :: storeSet t n m

/-- One Go map-write `m[k] = v` through a map reference. -/
def mutateEntry (st : Store) (r : Nat) (k : String) (v : BVal) : Store :=
  storeSet st r (mset (storeGet st r) k v)

/-- Embedding of `Identifier.GetQuery` in the heap model: allocates a
fresh map, copies every entry of the identifier's map into it, and
returns the new reference. -/
def GetQuery (st : Store) (r : Nat) : Store × Nat :=
  (st ++ [storeGet st r], st.length)

/-- Embedding of `Identifier.ToMap` in the heap model: returns the
internal map itself, i.e. the identifier's own reference. -/
def ToMap (_st : Store) (r : Nat) : Nat := r

/-- The identifier at reference `r`, as read by `ToBSON`, `Has` and
`Get`. -/
def identAt (st : Store) (r : Nat) : Identifier := ⟨storeGet st r⟩

end MongoUow



namespace MongoUow

theorem lookup_mset_self (m : List (String × BVal)) (k : String) (v : BVal) :
    (mset m k v).lookup k = some v := by
  induction m with
  | nil => simp [mset, List.lookup]
  | cons h t ih =>
      obtain ⟨k', v'⟩ := h
      by_cases hk : k' = k
      · simp [mset, hk, List.lookup]
      · have hb : (k == k') = false := by
          simp [Ne.symm hk]
        simp [mset, hk, List.lookup, hb, ih]

theorem lookup_mset_ne (m : List (String × BVal)) (k k' : String) (v : BVal)
    (h : k' ≠ k) : (mset m k v).lookup k' = m.lookup k' := by
  induction m with
  | nil =>
      have hb : (k' == k) = false := by simp [h]
      simp [mset, List.lookup, hb]
  | cons hd t ih =>
      obtain ⟨k0, v0⟩ := hd
      by_cases hk : k0 = k
      · subst hk
        have hb : (k' == k0) = false := by simp [h]
        simp [mset, List.lookup, hb]
      · simp [mset, hk, List.lookup, ih]

theorem mem_mset_self (m : List (String × BVal)) (k : String) (v : BVal) :
    (k, v) ∈ mset m k v := by
  induction m with
  | nil => simp [mset]
  | cons hd t ih =>
      obtain ⟨k0, v0⟩ := hd
      by_cases hk : k0 = k
      · simp [mset, hk]
      · simp [mset, hk, ih]


theorem subAux_space_append (q f s : List Char) (hf : ∀ c ∈ f, c ≠ ' ') :
    subAux (' ' :: q) (f ++ s) = subAux (' ' :: q) s := by
  induction f with
  | nil => rfl
  | cons c t ih =>
      have hc : c ≠ ' ' := hf c (by simp)
      have hb : (' ' == c) = false := by simp [Ne.symm hc]
      have ht : ∀ c' ∈ t, c' ≠ ' ' := fun c' hm => hf c' (by simp [hm])
      simp [subAux, List.isPrefixOf, hb, ih ht]

theorem subAux_space_nil (q : List Char) : subAux (' ' :: q) [] = false := rfl

theorem isPrefixOf_append_self (l t : List Char) :
    l.isPrefixOf (l ++ t) = true := by
  induction l with
  | nil => cases t <;> rfl
  | cons c cs ih => simp [List.isPrefixOf, ih]

theorem take_append_length (a b : List Char) : (a ++ b).take a.length = a := by
  induction a with
  | nil => rfl
  | cons c cs ih => simp [ih]

theorem strTrimSuffix_append (f p : String) : strTrimSuffix (f ++ p) p = f := by
  have hs : p.data.isSuffixOf (f ++ p).data = true := by
    show p.data.reverse.isPrefixOf (f ++ p).data.reverse = true
    rw [String.data_append, List.reverse_append]
    exact isPrefixOf_append_self _ _
  unfold strTrimSuffix
  rw [hs]
  simp only [String.data_append, List.length_append, if_true]
  have : f.data.length + p.data.length - p.data.length = f.data.length := by omega
  rw [this, take_append_length]


theorem strContains_field_append (f op p : String)
    (hf : ∀ c ∈ f.data, c ≠ ' ') (q : List Char) (hp : p.data = ' ' :: q) :
    strContains (f ++ op) p = strContains op p := by
  unfold strContains
  rw [String.data_append, hp, subAux_space_append _ _ _ hf, ← hp]

theorem strContains_spaceless (f p : String)
    (hf : ∀ c ∈ f.data, c ≠ ' ') (q : List Char) (hp : p.data = ' ' :: q) :
    strContains f p = false := by
  unfold strContains
  rw [hp, show f.data = f.data ++ [] by simp, subAux_space_append _ _ _ hf]
  rfl

theorem toBSONStep_gt (m : List (String × BVal)) (f : String) (v : BVal)
    (hf : ∀ c ∈ f.data, c ≠ ' ') :
    toBSONStep m (f ++ " >", v) = mset m f (.doc [("$gt", v)]) := by
  have h1 : strContains (f ++ " >") " >" = true := by
    rw [strContains_field_append f " >" " >" hf [' ', '>'].tail rfl]; rfl
  unfold toBSONStep
  simp [h1, strTrimSuffix_append]

theorem toBSONStep_lt (m : List (String × BVal)) (f : String) (v : BVal)
    (hf : ∀ c ∈ f.data, c ≠ ' ') :
    toBSONStep m (f ++ " <", v) = mset m f (.doc [("$lt", v)]) := by
  have h1 : strContains (f ++ " <") " >" = false := by
    rw [strContains_field_append f " <" " >" hf ['>'] rfl]; rfl
  have h2 : strContains (f ++ " <") " <" = true := by
    rw [strContains_field_append f " <" " <" hf ['<'] rfl]; rfl
  unfold toBSONStep
  simp [h1, h2, strTrimSuffix_append]

theorem toBSONStep_in (m : List (String × BVal)) (f : String) (v : BVal)
    (hf : ∀ c ∈ f.data, c ≠ ' ') :
    toBSONStep m (f ++ " IN", v) = mset m f (.doc [("$in", v)]) := by
  have h1 : strContains (f ++ " IN") " >" = false := by
    rw [strContains_field_append f " IN" " >" hf ['>'] rfl]; rfl
  have h2 : strContains (f ++ " IN") " <" = false := by
    rw [strContains_field_append f " IN" " <" hf ['<'] rfl]; rfl
  have h3 : strContains (f ++ " IN") " IN" = true := by
    rw [strContains_field_append f " IN" " IN" hf ['I', 'N'] rfl]; rfl
  unfold toBSONStep
  simp [h1, h2, h3, strTrimSuffix_append]


theorem toBSONStep_like (m : List (String × BVal)) (f : String) (v : BVal)
    (hf : ∀ c ∈ f.data, c ≠ ' ') :
    toBSONStep m (f ++ " LIKE", v)
      = mset m f (.doc [("$regex", v), ("$options", .str "i")]) := by
  have h1 : strContains (f ++ " LIKE") " >" = false := by
    rw [strContains_field_append f " LIKE" " >" hf ['>'] rfl]; rfl
  have h2 : strContains (f ++ " LIKE") " <" = false := by
    rw [strContains_field_append f " LIKE" " <" hf ['<'] rfl]; rfl
  have h3 : strContains (f ++ " LIKE") " IN" = false := by
    rw [strContains_field_append f " LIKE" " IN" hf ['I', 'N'] rfl]; rfl
  have h4 : strContains (f ++ " LIKE") " LIKE" = true := by
    rw [strContains_field_append f " LIKE" " LIKE" hf ['L', 'I', 'K', 'E'] rfl]; rfl
  unfold toBSONStep
  simp [h1, h2, h3, h4, strTrimSuffix_append]

theorem toBSONStep_between (m : List (String × BVal)) (f : String) (a b : BVal)
    (hf : ∀ c ∈ f.data, c ≠ ' ') :
    toBSONStep m (f ++ " BETWEEN", .arr [a, b])
      = mset m f (.doc [("$gte", a), ("$lte", b)]) := by
  have h1 : strContains (f ++ " BETWEEN") " >" = false := by
    rw [strContains_field_append f " BETWEEN" " >" hf ['>'] rfl]; rfl
  have h2 : strContains (f ++ " BETWEEN") " <" = false := by
    rw [strContains_field_append f " BETWEEN" " <" hf ['<'] rfl]; rfl
  have h3 : strContains (f ++ " BETWEEN") " IN" = false := by
    rw [strContains_field_append f " BETWEEN" " IN" hf ['I', 'N'] rfl]; rfl
  have h4 : strContains (f ++ " BETWEEN") " LIKE" = false := by
    rw [strContains_field_append f " BETWEEN" " LIKE" hf ['L', 'I', 'K', 'E'] rfl]; rfl
  have h5 : strContains (f ++ " BETWEEN") " BETWEEN" = true := by
    rw [strContains_field_append f " BETWEEN" " BETWEEN" hf
      ['B', 'E', 'T', 'W', 'E', 'E', 'N'] rfl]; rfl
  unfold toBSONStep
  simp [h1, h2, h3, h4, h5, strTrimSuffix_append]

theorem toBSONStep_isNull (m : List (String × BVal)) (f : String) (v : BVal)
    (hf : ∀ c ∈ f.data, c ≠ ' ') :
    toBSONStep m (f ++ " IS NULL", v)
      = mset m f (.doc [("$exists", .bool false)]) := by
  have h1 : strContains (f ++ " IS NULL") " >" = false := by
    rw [strContains_field_append f " IS NULL" " >" hf ['>'] rfl]; rfl
  have h2 : strContains (f ++ " IS NULL") " <" = false := by
    rw [strContains_field_append f " IS NULL" " <" hf ['<'] rfl]; rfl
  have h3 : strContains (f ++ " IS NULL") " IN" = false := by
    rw [strContains_field_append f " IS NULL" " IN" hf ['I', 'N'] rfl]; rfl
  have h4 : strContains (f ++ " IS NULL") " LIKE" = false := by
    rw [strContains_field_append f " IS NULL" " LIKE" hf ['L', 'I', 'K', 'E'] rfl]; rfl
  have h5 : strContains (f ++ " IS NULL") " BETWEEN" = false := by
    rw [strContains_field_append f " IS NULL" " BETWEEN" hf
      ['B', 'E', 'T', 'W', 'E', 'E', 'N'] rfl]; rfl
  have h6 : strContains (f ++ " IS NULL") " IS NULL" = true := by
    rw [strContains_field_append f " IS NULL" " IS NULL" hf
      ['I', 'S', ' ', 'N', 'U', 'L', 'L'] rfl]; rfl
  unfold toBSONStep
  simp [h1, h2, h3, h4, h5, h6, strTrimSuffix_append]

theorem toBSONStep_isNotNull (m : List (String × BVal)) (f : String) (v : BVal)
    (hf : ∀ c ∈ f.data, c ≠ ' ') :
    toBSONStep m (f ++ " IS NOT NULL", v)
      = mset m f (.doc [("$exists", .bool true)]) := by
  have h1 : strContains (f ++ " IS NOT NULL") " >" = false := by
    rw [strContains_field_append f " IS NOT NULL" " >" hf ['>'] rfl]; rfl
  have h2 : strContains (f ++ " IS NOT NULL") " <" = false := by
    rw [strContains_field_append f " IS NOT NULL" " <" hf ['<'] rfl]; rfl
  have h3 : strContains (f ++ " IS NOT NULL") " IN" = false := by
    rw [strContains_field_append f " IS NOT NULL" " IN" hf ['I', 'N'] rfl]; rfl
  have h4 : strContains (f ++ " IS NOT NULL") " LIKE" = false := by
    rw [strContains_field_append f " IS NOT NULL" " LIKE" hf
      ['L', 'I', 'K', 'E'] rfl]; rfl
  have h5 : strContains (f ++ " IS NOT NULL") " BETWEEN" = false := by
    rw [strContains_field_append f " IS NOT NULL" " BETWEEN" hf
      ['B', 'E', 'T', 'W', 'E', 'E', 'N'] rfl]; rfl
  have h6 : strContains (f ++ " IS NOT NULL") " IS NULL" = false := by
    rw [strContains_field_append f " IS NOT NULL" " IS NULL" hf
      ['I', 'S', ' ', 'N', 'U', 'L', 'L'] rfl]; rfl
  have h7 : strContains (f ++ " IS NOT NULL") " IS NOT NULL" = true := by
    rw [strContains_field_append f " IS NOT NULL" " IS NOT NULL" hf
      ['I', 'S', ' ', 'N', 'O', 'T', ' ', 'N', 'U', 'L', 'L'] rfl]; rfl
  unfold toBSONStep
  simp [h1, h2, h3, h4, h5, h6, h7, strTrimSuffix_append]

theorem toBSONStep_plain (m : List (String × BVal)) (f : String) (v : BVal)
    (hf : ∀ c ∈ f.data, c ≠ ' ') :
    toBSONStep m (f, v) = mset m f v := by
  have h1 : strContains f " >" = false := strContains_spaceless f " >" hf ['>'] rfl
  have h2 : strContains f " <" = false := strContains_spaceless f " <" hf ['<'] rfl
  have h3 : strContains f " IN" = false :=
    strContains_spaceless f " IN" hf ['I', 'N'] rfl
  have h4 : strContains f " LIKE" = false :=
    strContains_spaceless f " LIKE" hf ['L', 'I', 'K', 'E'] rfl
  have h5 : strContains f " BETWEEN" = false :=
    strContains_spaceless f " BETWEEN" hf ['B', 'E', 'T', 'W', 'E', 'E', 'N'] rfl
  have h6 : strContains f " IS NULL" = false :=
    strContains_spaceless f " IS NULL" hf ['I', 'S', ' ', 'N', 'U', 'L', 'L'] rfl
  have h7 : strContains f " IS NOT NULL" = false :=
    strContains_spaceless f " IS NOT NULL" hf
      ['I', 'S', ' ', 'N', 'O', 'T', ' ', 'N', 'U', 'L', 'L'] rfl
  unfold toBSONStep
  simp [h1, h2, h3, h4, h5, h6, h7]


/-- C4 (amended): for every accumulated condition map and every field
name containing no space character (so that the only operator marker in
the key is its suffix), one translation step of `ToBSON` maps the
suffixed keys to `$gt`, `$lt`, `$in`, case-insensitive `$regex`,
`$gte`/`$lte`, exists-false and exists-true predicates on the trimmed
field name, and a plain key to an equality predicate; the round trip
`Equal("name","x").GreaterThan("age",18)` produces exactly two top-level
entries, an equality on `name` and a `$gt` comparison on `age`. -/
theorem toBSON_operator_mapping :
    (∀ (m : List (String × BVal)) (f : String) (v : BVal),
      (∀ c ∈ f.data, c ≠ ' ') →
      toBSONStep m (f ++ " >", v) = mset m f (.doc [("$gt", v)]) ∧
      toBSONStep m (f ++ " <", v) = mset m f (.doc [("$lt", v)]) ∧
      toBSONStep m (f ++ " IN", v) = mset m f (.doc [("$in", v)]) ∧
      toBSONStep m (f ++ " LIKE", v)
        = mset m f (.doc [("$regex", v), ("$options", .str "i")]) ∧
      toBSONStep m (f ++ " IS NULL", v)
        = mset m f (.doc [("$exists", .bool false)]) ∧
      toBSONStep m (f ++ " IS NOT NULL", v)
        = mset m f (.doc [("$exists", .bool true)]) ∧
      toBSONStep m (f, v) = mset m f v) ∧
    (∀ (m : List (String × BVal)) (f : String) (a b : BVal),
      (∀ c ∈ f.data, c ≠ ' ') →
      toBSONStep m (f ++ " BETWEEN", .arr [a, b])
        = mset m f (.doc [("$gte", a), ("$lte", b)])) ∧
    ((Identifier.New.Equal "name" (.str "x")).GreaterThan "age" (.int 18)).ToBSON
      = [("name", .str "x"), ("age", .doc [("$gt", .int 18)])] := by
  refine ⟨fun m f v hf => ?_, fun m f a b hf => toBSONStep_between m f a b hf, rfl⟩
  exact ⟨toBSONStep_gt m f v hf, toBSONStep_lt m f v hf, toBSONStep_in m f v hf,
    toBSONStep_like m f v hf, toBSONStep_isNull m f v hf,
    toBSONStep_isNotNull m f v hf, toBSONStep_plain m f v hf⟩

theorem toBSON_operator_mapping_witness :
    toBSONStep [] ("age" ++ " >", .int 18)
      = mset [] "age" (.doc [("$gt", .int 18)]) :=
  ((toBSON_operator_mapping.1 [] "age" (.int 18) (by decide)).1)

/-- C4 counterexample: the accumulated map of `New().In("a >", [1])` has
the single key `"a > IN"`, which carries the operator suffix `" IN"`,
yet `ToBSON` translates it to a `$gt` predicate on the untrimmed key
(the `" >"` branch fires first under `strings.Contains`), not to an
`$in` predicate on the trimmed field name `"a >"`. -/
theorem toBSON_in_suffix_counterexample :
    (Identifier.New.In "a >" [.int 1]).query = [("a > IN", .arr [.int 1])] ∧
    (Identifier.New.In "a >" [.int 1]).ToBSON
      = [("a > IN", .doc [("$gt", .arr [.int 1])])] ∧
    ((Identifier.New.In "a >" [.int 1]).ToBSON).lookup "a >" = none := by
  exact ⟨rfl, rfl, rfl⟩


/-- C1: `BeginTransaction` errors exactly when a transaction is already
in progress and otherwise moves to the in-transaction state with an
active session; `CommitTransaction` errors exactly when idle and
otherwise ends the session and returns to idle; `RollbackTransaction` is
a no-op when idle, otherwise aborts and ends the session, never returns
an error (its Go signature has no error result), and always leaves the
instance idle.  Driver session calls are modelled as succeeding. -/
theorem transaction_lifecycle (s : TxState) :
    (BeginTransaction s = .error "transaction already in progress"
      ↔ s.inTx = true) ∧
    (s.inTx = false → BeginTransaction s
      = .ok { inTx := true, hasSession := true }) ∧
    (CommitTransaction s = .error "no transaction in progress"
      ↔ s.inTx = false) ∧
    (s.inTx = true → CommitTransaction s
      = .ok { inTx := false, hasSession := false }) ∧
    (s.inTx = false → RollbackTransaction s = s) ∧
    (s.inTx = true → RollbackTransaction s
      = { inTx := false, hasSession := false }) ∧
    (RollbackTransaction s).inTx = false := by
  obtain ⟨tx, sess⟩ := s
  cases tx <;> cases sess <;>
    simp [BeginTransaction, CommitTransaction, RollbackTransaction]

theorem transaction_lifecycle_witness :
    BeginTransaction { inTx := false, hasSession := false }
      = .ok { inTx := true, hasSession := true } :=
  (transaction_lifecycle { inTx := false, hasSession := false }).2.1 rfl

/-- C3: `Insert` stamps creation and update timestamps to the same
`now`, assigns the freshly generated ObjectID (non-zero, as
`primitive.NewObjectID` is) when the entity's identity is the zero
value, and keeps a pre-set identity. -/
theorem insert_identity_and_timestamps (now fresh : Nat) (db : List Entity)
    (e : Entity) (hfresh : fresh ≠ 0) :
    (e.ID = 0 → (Insert now fresh db e).2.ID = fresh
      ∧ (Insert now fresh db e).2.ID ≠ 0) ∧
    (e.ID ≠ 0 → (Insert now fresh db e).2.ID = e.ID) ∧
    (Insert now fresh db e).2.CreatedAt = (Insert now fresh db e).2.UpdatedAt ∧
    (Insert now fresh db e).2.CreatedAt = now := by
  by_cases h : e.ID = 0 <;>
    simp [Insert, setEntityTimestamp, h, hfresh]

theorem insert_identity_and_timestamps_witness :
    (Insert 3 7 [] {}).2.ID = 7 ∧ (Insert 3 7 [] {}).2.ID ≠ 0 :=
  (insert_identity_and_timestamps 3 7 [] {} (by decide)).1 rfl

/-- C6: `QueryParams.Validate` clamps the pagination fields — a negative
limit becomes the default 10, a limit above 1000 becomes 1000, a
negative offset becomes 0, in-range values are unchanged, and the result
always satisfies `0 ≤ Limit ≤ 1000` and `0 ≤ Offset`; the filter, sort
and include fields are untouched. -/
theorem queryParams_validate_clamps (q : QueryParams) :
    (q.Limit = -1 → q.Validate.Limit = 10) ∧
    (q.Limit = 2000 → q.Validate.Limit = 1000) ∧
    (q.Offset < 0 → q.Validate.Offset = 0) ∧
    (0 ≤ q.Limit → q.Limit ≤ 1000 → q.Validate.Limit = q.Limit) ∧
    (0 ≤ q.Offset → q.Validate.Offset = q.Offset) ∧
    0 ≤ q.Validate.Limit ∧ q.Validate.Limit ≤ 1000 ∧ 0 ≤ q.Validate.Offset ∧
    q.Validate.Filter = q.Filter ∧ q.Validate.SortBy = q.SortBy ∧
    q.Validate.Include = q.Include := by
  by_cases h1 : q.Limit < 0 <;> by_cases h2 : q.Limit > 1000 <;>
    by_cases h3 : q.Offset < 0 <;>
    simp [QueryParams.Validate, h1, h2, h3] <;>
    omega

theorem queryParams_validate_clamps_witness :
    (QueryParams.Validate { Limit := -1, Offset := -5 }).Limit = 10 :=
  (queryParams_validate_clamps { Limit := -1, Offset := -5 }).1 rfl

/-- C7: every bulk operation returns success without touching the
collection when its input is empty; in particular `BulkInsert` of an
empty collection returns an empty collection and no error. -/
theorem bulk_empty_noop (now : Nat) (fresh : Nat → Nat) (db : List Entity) :
    BulkInsert now fresh db [] = (db, .ok []) ∧
    BulkUpdate now db [] = (db, .ok []) ∧
    BulkSoftDelete now db [] = (db, .ok ()) ∧
    BulkHardDelete db [] = (db, .ok ()) := by
  exact ⟨rfl, rfl, rfl, rfl⟩

end MongoUow

namespace MongoUow

/-- C5: for non-empty input, `BulkUpdate` issues a single unordered
batched write and errors exactly when the reported modified count
differs from the number of requested entities; in the concrete
three-entity scenario with one nonexistent identity, the reported
modified count is 2, the error names 2-of-3, and the two applied
updates remain committed in the collection. -/
theorem bulkUpdate_count_mismatch :
    (∀ (now : Nat) (db es : List Entity), es ≠ [] →
      (exceptIsErr (BulkUpdate now db es).2 = true
        ↔ (bulkWriteUpdates db
            (es.map (fun e => setEntityTimestamp e "updatedAt" now))).2
          ≠ es.length)) ∧
    (BulkUpdate 5 [{ ID := 1 }, { ID := 2 }]
        [{ ID := 1, Name := "a" }, { ID := 2, Name := "b" },
         { ID := 3, Name := "c" }]).2
      = .error "not all entities were updated: modified 2 out of 3" ∧
    (bulkWriteUpdates [{ ID := 1 }, { ID := 2 }]
        ([{ ID := 1, Name := "a" }, { ID := 2, Name := "b" },
          { ID := 3, Name := "c" }].map
          (fun e => setEntityTimestamp e "updatedAt" 5))).2 = 2 ∧
    (BulkUpdate 5 [{ ID := 1 }, { ID := 2 }]
        [{ ID := 1, Name := "a" }, { ID := 2, Name := "b" },
         { ID := 3, Name := "c" }]).1
      = [{ ID := 1, Name := "a", UpdatedAt := 5 },
         { ID := 2, Name := "b", UpdatedAt := 5 }] := by
  refine ⟨fun now db es h => ?_, rfl, rfl, rfl⟩
  have hne : es.isEmpty = false := by
    cases es with
    | nil => exact absurd rfl h
    | cons a t => rfl
  by_cases hc :
      (bulkWriteUpdates db
        (es.map (fun e => setEntityTimestamp e "updatedAt" now))).2
      = es.length
  · simp [BulkUpdate, hne, exceptIsErr, hc]
  · simp [BulkUpdate, hne, exceptIsErr, hc]

theorem bulkUpdate_count_mismatch_witness :
    exceptIsErr (BulkUpdate 5 [{ ID := 1 }, { ID := 2 }]
        [{ ID := 1, Name := "a" }, { ID := 2, Name := "b" },
         { ID := 3, Name := "c" }]).2 = true :=
  (bulkUpdate_count_mismatch.1 5 [{ ID := 1 }, { ID := 2 }]
      [{ ID := 1, Name := "a" }, { ID := 2, Name := "b" },
       { ID := 3, Name := "c" }] (by decide)).mpr (by decide)


theorem entityDoc_lookup_deletedAt (e : Entity) :
    (entityDoc e).lookup "deletedAt" = e.DeletedAt.map BVal.time := by
  unfold entityDoc buildFilterFromModel
  split_ifs <;> cases hd : e.DeletedAt <;> simp [hd, List.lookup]

theorem restoreGo_some (now : Nat) (filter : Doc) :
    ∀ (l l' : List Entity) (r : Entity),
      restoreGo now filter l = some (l', r) →
      r.DeletedAt = none ∧ r.UpdatedAt = now := by
  intro l
  induction l with
  | nil => intro l' r h; simp [restoreGo] at h
  | cons d t ih =>
      intro l' r h
      by_cases hm : matchFilter filter (entityDoc d) = true
      · simp [restoreGo, hm] at h
        obtain ⟨-, h2⟩ := h
        subst h2
        exact ⟨rfl, rfl⟩
      · simp [restoreGo, hm] at h
        rcases hrec : restoreGo now filter t with - | p
        · rw [hrec] at h
          simp at h
        · rw [hrec] at h
          obtain ⟨t', r'⟩ := p
          simp at h
          obtain ⟨-, h2⟩ := h
          subst h2
          exact ih t' r' hrec

theorem restoreGo_none (now : Nat) (filter : Doc) :
    ∀ l : List Entity,
      (∀ e ∈ l, matchFilter filter (entityDoc e) = false) →
      restoreGo now filter l = none := by
  intro l
  induction l with
  | nil => intro _; rfl
  | cons d t ih =>
      intro h
      have hd : matchFilter filter (entityDoc d) = false := h d (by simp)
      have ht := ih (fun e he => h e (by simp [he]))
      simp [restoreGo, hd, ht]


/-- C8: the filter executed by `Restore` additionally requires the
document to be currently soft-deleted (its `deletedAt` entry is the
exists-true predicate, and any matching document has a deletion
timestamp); a successful restore returns the post-update document with
the deletion timestamp unset and the update timestamp re-stamped; when
no currently soft-deleted document matches, the call fails with the
`entity not found in trash` error. -/
theorem restore_requires_soft_deleted (now : Nat) (db : List Entity)
    (i : Identifier) :
    (restoreFilter i).lookup "deletedAt" = some existsTrue ∧
    (∀ e : Entity,
      matchFilter (restoreFilter i) (entityDoc e) = true → e.DeletedAt ≠ none) ∧
    (∀ (db' : List Entity) (r : Entity),
      Restore now db i = (db', .ok r) → r.DeletedAt = none ∧ r.UpdatedAt = now) ∧
    ((∀ e ∈ db, matchFilter (restoreFilter i) (entityDoc e) = false) →
      Restore now db i = (db, .error "entity not found in trash")) := by
  refine ⟨lookup_mset_self _ _ _, fun e hm => ?_, fun db' r h => ?_, fun h => ?_⟩
  · have hmem : ("deletedAt", existsTrue) ∈ restoreFilter i :=
      mem_mset_self _ _ _
    have hp : matchPred (entityDoc e) "deletedAt" existsTrue = true := by
      have := List.all_eq_true.mp hm ("deletedAt", existsTrue) hmem
      exact this
    intro hnone
    rw [show existsTrue = BVal.doc [("$exists", BVal.bool true)] from rfl] at hp
    simp [matchPred, entityDoc_lookup_deletedAt, hnone] at hp
  · unfold Restore at h
    rcases hrec : restoreGo now (restoreFilter i) db with - | p
    · rw [hrec] at h
      simp at h
    · obtain ⟨db0, r0⟩ := p
      rw [hrec] at h
      simp at h
      obtain ⟨-, h2⟩ := h
      subst h2
      exact restoreGo_some now (restoreFilter i) db db0 r0 hrec
  · unfold Restore
    rw [restoreGo_none now (restoreFilter i) db h]

theorem restore_requires_soft_deleted_witness :
    Restore 9 [{ ID := 1 }] (Identifier.New.Equal "_id" (.oid 1))
      = ([{ ID := 1 }], .error "entity not found in trash") :=
  (restore_requires_soft_deleted 9 [{ ID := 1 }]
      (Identifier.New.Equal "_id" (.oid 1))).2.2.2 (by decide)


/-- C9: `ConnectionString` produces exactly the literal format
`mongodb://[user:pass@]host:port/database[?param=val&...]` — the
credential segment appears only when username and password are both
non-empty, the parameters are joined by `&` after a single `?`, and
every appended parameter is one of the five forms with its governing
config field non-default/non-empty (`authSource` additionally requires a
non-empty username, as the source ties it to authentication). -/
theorem connectionString_spec_format (c : Config) :
    connectionString c = specURIFormat
      (if c.Username ≠ "" ∧ c.Password ≠ "" then some (c.Username, c.Password)
       else none)
      c.Host c.Port c.Database (connParams c) ∧
    (∀ p ∈ connParams c,
      (p = "authSource=" ++ c.AuthSource ∧ c.AuthSource ≠ "" ∧ c.Username ≠ "") ∨
      (p = "maxPoolSize=" ++ toString c.MaxPoolSize ∧ c.MaxPoolSize > 0) ∨
      (p = "minPoolSize=" ++ toString c.MinPoolSize ∧ c.MinPoolSize > 0) ∨
      (p = "ssl=true" ∧ c.SSL = true) ∨
      (p = "replicaSet=" ++ c.ReplicaSet ∧ c.ReplicaSet ≠ "")) := by
  constructor
  · by_cases h : c.Username ≠ "" ∧ c.Password ≠ "" <;>
      simp [connectionString, specURIFormat, h, String.append_assoc]
  · intro p hp
    unfold connParams at hp
    split_ifs at hp with h1 h2 h3 h4 h5 <;> simp_all

theorem connectionString_spec_format_witness :
    ("maxPoolSize=" ++ toString NewConfig.MaxPoolSize
        = "authSource=" ++ NewConfig.AuthSource
        ∧ NewConfig.AuthSource ≠ "" ∧ NewConfig.Username ≠ "") ∨
    ("maxPoolSize=" ++ toString NewConfig.MaxPoolSize
        = "maxPoolSize=" ++ toString NewConfig.MaxPoolSize
        ∧ NewConfig.MaxPoolSize > 0) ∨
    ("maxPoolSize=" ++ toString NewConfig.MaxPoolSize
        = "minPoolSize=" ++ toString NewConfig.MinPoolSize
        ∧ NewConfig.MinPoolSize > 0) ∨
    ("maxPoolSize=" ++ toString NewConfig.MaxPoolSize = "ssl=true"
        ∧ NewConfig.SSL = true) ∨
    ("maxPoolSize=" ++ toString NewConfig.MaxPoolSize
        = "replicaSet=" ++ NewConfig.ReplicaSet
        ∧ NewConfig.ReplicaSet ≠ "") :=
  (connectionString_spec_format NewConfig).2
    ("maxPoolSize=" ++ toString NewConfig.MaxPoolSize) (by decide)


theorem storeGet_append_lt (st : Store) (l : Store) (r : Nat)
    (h : r < st.length) : storeGet (st ++ l) r = storeGet st r := by
  induction st generalizing r with
  | nil => simp at h
  | cons m t ih =>
      cases r with
      | zero => rfl
      | succ n => exact ih n (by simpa using h)

theorem storeGet_append_len (st : Store) (m : List (String × BVal)) :
    storeGet (st ++ [m]) st.length = m := by
  induction st with
  | nil => rfl
  | cons m0 t ih => simpa using ih

theorem storeGet_set_ne (st : Store) (r r' : Nat) (m : List (String × BVal))
    (h : r ≠ r') : storeGet (storeSet st r' m) r = storeGet st r := by
  induction st generalizing r r' with
  | nil => rfl
  | cons m0 t ih =>
      cases r' with
      | zero =>
          cases r with
          | zero => exact absurd rfl h
          | succ n => rfl
      | succ n' =>
          cases r with
          | zero => rfl
          | succ n => exact ih n n' (by omega)

theorem storeGet_set_self (st : Store) (r : Nat) (m : List (String × BVal))
    (h : r < st.length) : storeGet (storeSet st r m) r = m := by
  induction st generalizing r with
  | nil => simp at h
  | cons m0 t ih =>
      cases r with
      | zero => rfl
      | succ n => exact ih n (by simpa using h)

/-- C10: `GetQuery` hands back an independent copy of the accumulated
conditions — its entries equal the identifier's map, the returned
reference is distinct, and a map-write through it leaves the
identifier's subsequent `ToBSON`, `ToMap`, `Has` and `Get` results
unchanged — whereas `ToMap` returns the internal map itself, so a
map-write through its result does alter the identifier's map and its
subsequent query construction. -/
theorem getQuery_copies_toMap_aliases (st : Store) (r : Nat) (k : String)
    (v : BVal) (hr : r < st.length) :
    storeGet (GetQuery st r).1 (GetQuery st r).2 = storeGet st r ∧
    (GetQuery st r).2 ≠ r ∧
    identAt (mutateEntry (GetQuery st r).1 (GetQuery st r).2 k v) r
      = identAt st r ∧
    (identAt (mutateEntry (GetQuery st r).1 (GetQuery st r).2 k v) r).ToBSON
      = (identAt st r).ToBSON ∧
    (∀ key, (identAt (mutateEntry (GetQuery st r).1 (GetQuery st r).2 k v) r).Has
        key = (identAt st r).Has key) ∧
    (∀ key, (identAt (mutateEntry (GetQuery st r).1 (GetQuery st r).2 k v) r).Get
        key = (identAt st r).Get key) ∧
    storeGet (mutateEntry st (ToMap st r) k v) r = mset (storeGet st r) k v ∧
    ((storeGet st r).lookup k = none →
      (identAt st r).Has k = false ∧
      (identAt (mutateEntry st (ToMap st r) k v) r).Has k = true) := by
  have hne : st.length ≠ r := Nat.ne_of_gt hr
  have hcopy : storeGet (GetQuery st r).1 (GetQuery st r).2 = storeGet st r :=
    storeGet_append_len st (storeGet st r)
  have hframe :
      storeGet (mutateEntry (GetQuery st r).1 (GetQuery st r).2 k v) r
        = storeGet st r := by
    unfold mutateEntry GetQuery
    rw [storeGet_set_ne _ _ _ _ (Nat.ne_of_lt hr), storeGet_append_lt _ _ _ hr]
  have hident :
      identAt (mutateEntry (GetQuery st r).1 (GetQuery st r).2 k v) r
        = identAt st r := by
    unfold identAt
    rw [hframe]
  refine ⟨hcopy, hne, hident, by rw [hident], fun key => by rw [hident],
    fun key => by rw [hident], ?_, fun hnone => ?_⟩
  · unfold mutateEntry ToMap
    exact storeGet_set_self st r _ hr
  · constructor
    · simp [identAt, Identifier.Has, hnone]
    · have hm : storeGet (mutateEntry st (ToMap st r) k v) r
          = mset (storeGet st r) k v := by
        unfold mutateEntry ToMap
        exact storeGet_set_self st r _ hr
      simp [identAt, Identifier.Has, hm, lookup_mset_self]

theorem getQuery_copies_toMap_aliases_witness :
    (identAt [[("a", BVal.int 1)]] 0).Has "b" = false ∧
    (identAt (mutateEntry [[("a", BVal.int 1)]]
        (ToMap [[("a", BVal.int 1)]] 0) "b" (BVal.int 2)) 0).Has "b" = true :=
  (getQuery_copies_toMap_aliases [[("a", BVal.int 1)]] 0 "b" (BVal.int 2)
      (by decide)).2.2.2.2.2.2.2 rfl


theorem lookup_foldl_mset_ne (l : List (String × BVal)) :
    ∀ (base : List (String × BVal)) (k : String),
      (∀ kv ∈ l, kv.1 ≠ k) →
      ((l.foldl (fun acc kv => mset acc kv.1 kv.2) base)).lookup k
        = base.lookup k := by
  induction l with
  | nil => intro base k _; rfl
  | cons kv t ih =>
      intro base k h
      have hk : kv.1 ≠ k := h kv (by simp)
      have ht : ∀ kv' ∈ t, kv'.1 ≠ k := fun kv' hm => h kv' (by simp [hm])
      simp only [List.foldl_cons]
      rw [ih _ k ht]
      exact lookup_mset_ne base kv.1 k kv.2 (Ne.symm hk)

theorem buildFilter_no_deletedAt (e : Entity) (h : e.DeletedAt = none) :
    ∀ kv ∈ buildFilterFromModel e, kv.1 ≠ "deletedAt" := by
  intro kv hm
  unfold buildFilterFromModel at hm
  rw [h] at hm
  split_ifs at hm <;> simp at hm <;>
    first
      | (rcases hm with h1 | h1 | h1 | h1 | h1 <;> simp [h1])
      | (rcases hm with h1 | h1 | h1 | h1 <;> simp [h1])
      | (rcases hm with h1 | h1 | h1 <;> simp [h1])
      | (rcases hm with h1 | h1 <;> simp [h1])
      | simp [hm]

theorem paginationFilter_deletedAt_none (e : Entity) (h : e.DeletedAt = none) :
    (findAllWithPaginationFilter (some e)).lookup "deletedAt"
      = some existsFalse := by
  unfold findAllWithPaginationFilter
  rw [lookup_foldl_mset_ne _ _ _ (buildFilter_no_deletedAt e h)]
  rfl

theorem paginationFilter_deletedAt_some (e : Entity) (t : Nat)
    (h : e.DeletedAt = some t) :
    (findAllWithPaginationFilter (some e)).lookup "deletedAt"
      = some (.time t) := by
  have hdef : findAllWithPaginationFilter (some e)
      = (buildFilterFromModel e).foldl (fun acc kv => mset acc kv.1 kv.2)
        [("deletedAt", existsFalse)] := rfl
  rw [hdef]
  unfold buildFilterFromModel
  rw [h]
  split_ifs <;> simp [List.foldl_append, lookup_mset_self]


/-- C2 (amended): the executed read filters require the `deletedAt`
field to be absent, with these precise provisos — `FindAll` and
`FindOneById` always; `FindOne` unconditionally (the exists-false
predicate overwrites any deletion-timestamp entry of the entity filter);
`FindOneByIdentifier` unless the identifier's raw key set contains the
literal key `"deletedAt"` (as `Equal`/`Add` store it), in which case the
identifier's filter is used untouched; the paginated find unless the
entity filter carries a non-zero deletion timestamp, which overwrites
the base predicate.  `FindOneByIdentifier` and `FindOne` return the
`entity not found` error when zero documents match, while `FindAll`
returns an empty collection and no error. -/
theorem read_filters_soft_delete :
    (∀ i : Identifier, i.Has "deletedAt" = false →
      (findOneByIdentifierFilter i).lookup "deletedAt" = some existsFalse) ∧
    (∀ i : Identifier, i.Has "deletedAt" = true →
      findOneByIdentifierFilter i = i.ToBSON) ∧
    (∀ e : Entity, (findOneFilter e).lookup "deletedAt" = some existsFalse) ∧
    (∀ id : Nat, (findOneByIdFilter id).lookup "deletedAt" = some existsFalse) ∧
    (findAllWithPaginationFilter none).lookup "deletedAt" = some existsFalse ∧
    (∀ e : Entity, e.DeletedAt = none →
      (findAllWithPaginationFilter (some e)).lookup "deletedAt"
        = some existsFalse) ∧
    (∀ (e : Entity) (t : Nat), e.DeletedAt = some t →
      (findAllWithPaginationFilter (some e)).lookup "deletedAt"
        = some (.time t)) ∧
    (∀ (coll : List Doc) (i : Identifier),
      (∀ d ∈ coll, matchFilter (findOneByIdentifierFilter i) d = false) →
      FindOneByIdentifier coll i = .error "entity not found") ∧
    (∀ (coll : List Doc) (e : Entity),
      (∀ d ∈ coll, matchFilter (findOneFilter e) d = false) →
      FindOne coll e = .error "entity not found") ∧
    (∀ coll : List Doc,
      (∀ d ∈ coll, matchFilter [("deletedAt", existsFalse)] d = false) →
      FindAll coll = .ok []) := by
  refine ⟨fun i h => ?_, fun i h => ?_, fun e => lookup_mset_self _ _ _,
    fun id => by simp [findOneByIdFilter, List.lookup], rfl,
    paginationFilter_deletedAt_none, paginationFilter_deletedAt_some,
    fun coll i h => ?_, fun coll e h => ?_, fun coll h => ?_⟩
  · simp only [findOneByIdentifierFilter, h, Bool.false_eq_true, if_false]
    exact lookup_mset_self _ _ _
  · simp [findOneByIdentifierFilter, h]
  · have : coll.find? (fun d => matchFilter (findOneByIdentifierFilter i) d)
        = none := List.find?_eq_none.mpr (by simpa using h)
    simp [FindOneByIdentifier, this]
  · have : coll.find? (fun d => matchFilter (findOneFilter e) d) = none :=
      List.find?_eq_none.mpr (by simpa using h)
    simp [FindOne, this]
  · have : coll.filter (fun d => matchFilter [("deletedAt", existsFalse)] d)
        = [] := by
      rw [List.filter_eq_nil_iff]
      simpa using h
    simp [FindAll, this]

theorem read_filters_soft_delete_witness :
    FindOneByIdentifier [[("_id", BVal.oid 1), ("deletedAt", BVal.time 3)]]
      (Identifier.New.Equal "_id" (.oid 1)) = .error "entity not found" :=
  read_filters_soft_delete.2.2.2.2.2.2.2.1
    [[("_id", BVal.oid 1), ("deletedAt", BVal.time 3)]]
    (Identifier.New.Equal "_id" (.oid 1)) (by decide)

/-- C2 counterexample: `New().IsNotNull("deletedAt")` explicitly
references the deletion-timestamp field (its own `ToBSON` is the
exists-true predicate on `deletedAt`), yet `Has "deletedAt"` is false on
the raw key `"deletedAt IS NOT NULL"`, so `FindOneByIdentifier`
overwrites the predicate with exists-false: the executed filter requires
the field to be absent, and a soft-deleted document matching the
caller's predicate is reported `entity not found`. -/
theorem isNotNull_deletedAt_counterexample :
    (Identifier.New.IsNotNull "deletedAt").ToBSON
      = [("deletedAt", existsTrue)] ∧
    (Identifier.New.IsNotNull "deletedAt").Has "deletedAt" = false ∧
    findOneByIdentifierFilter (Identifier.New.IsNotNull "deletedAt")
      = [("deletedAt", existsFalse)] ∧
    FindOneByIdentifier [[("_id", BVal.oid 1), ("deletedAt", BVal.time 3)]]
      (Identifier.New.IsNotNull "deletedAt") = .error "entity not found" := by
  exact ⟨rfl, rfl, rfl, rfl⟩

end MongoUow
